import Mathlib

/-!
# BCM2711 framebuffer display driver

Shallow embedding of `drivers/display/display_bcm2711.c` (mailbox exchange,
property-tag request builder, one-time negotiation, pixel blit) and the
theorems that settle the driver's specification against it.

Conventions of the embedding

* Machine integers are natural numbers or integers reduced explicitly:
  `u16`, `u32`, `u64` truncate to an unsigned width, `wrapInt32` is a C `int`
  in two's complement (the kernel is built with `-fno-strict-overflow`, so a
  signed overflow wraps).
* The ABI is the one of the BCM2711 (Cortex-A72, AAPCS64, LP64): `int` has 32
  bits, `size_t` and pointers have 64 bits, plain `char` is unsigned.
* Memory is a function from byte address to byte value; the word buffer `mbox`
  is a function from word index to word value.
-/

namespace Bcm2711

/-! ## Machine arithmetic -/

/-- Truncation to `uint16_t`. -/
def u16 (n : Nat) : Nat := n % 65536

/-- Truncation to `uint32_t`. -/
def u32 (n : Nat) : Nat := n % 4294967296

/-- Truncation to `size_t` / `uintptr_t` (64 bits). -/
def u64 (n : Nat) : Nat := n % 18446744073709551616

/-- Value of a C `int` expression whose exact result is `z`: two's complement wrap to 32 bits. -/
def wrapInt32 (z : Int) : Int := (z + 2147483648) % 4294967296 - 2147483648

/-- Conversion of an `int` to `size_t`. -/
def intToSizeT (z : Int) : Nat := (z % 18446744073709551616).toNat

/-- Signedness of plain `char`: unsigned under AAPCS64, the ABI of the BCM2711. -/
def CHAR_IS_SIGNED : Bool := false

/-- Conversion `(uint32_t)c` of a `char` holding the byte `b`, for either signedness of
plain `char`: a signed `char` with the top bit set is negative and converts modulo `2^32`. -/
def charToU32 ( signed : Bool) (b : Nat) : Nat :=
  if signed && decide (128 ≤ b % 256) then b % 256 + 4294967040 else b % 256

/-! ## Byte memory -/

/-- Little-endian store of the 32-bit word `val` at byte address `addr`. -/
def store32 (mem : Nat → Nat) (addr val : Nat) : Nat → Nat :=
  fun a => if addr ≤ a ∧ a < addr + 4 then val / 256 ^ (a - addr) % 256 else mem a

/-- Little-endian load of the 32-bit word at byte address `addr`. -/
def load32 (mem : Nat → Nat) (addr : Nat) : Nat :=
  mem addr % 256 + 256 * (mem (addr + 1) % 256) + 65536 * (mem (addr + 2) % 256)
    + 16777216 * (mem (addr + 3) % 256)

/-- Framebuffer memory together with the record of the 32-bit stores made to it,
oldest first, each as `(byte address, word)`. -/
structure FbState where
  mem : Nat → Nat
  stores : List (Nat × Nat)

/-- The statement `*((uint32_t *)ptr) = pixel`. -/
def FbState.store (s : FbState) (ptr pixel : Nat) : FbState :=
  { mem := store32 s.mem ptr pixel, stores := s.stores ++ [(ptr, pixel)] }

/-! ## Driver data -/

/-- Device configuration, `struct bcm2711_display_config`. -/
structure bcm2711_display_config where
  videocore_address : Nat
  height : Nat
  width : Nat

/-- Channel order reported by the firmware, `RpiPixelOrder`. -/
inductive RpiPixelOrder where
  | RGB
  | BGR
  deriving DecidableEq, Repr

/-- Driver instance data, `struct bcm2711_display_data`. -/
structure bcm2711_display_data where
  pixel_order : RpiPixelOrder
  virtual_framebuffer_address : Nat
  framebuffer_size : Nat
  physical_width : Nat
  physical_height : Nat
  pitch : Nat

/-- Modelled from the spec: `struct display_buffer_descriptor` of the display API header,
which is not part of the driver source; `width`, `height` and `pitch` are 16-bit fields. -/
structure display_buffer_descriptor where
  buf_size : Nat
  width : Nat
  height : Nat
  pitch : Nat

/-! ## Pixel blit: `bcm2711_display_write` -/

/-- The expression `((h * desc->pitch) + w) * 3` evaluated in `int` and converted to the
`size_t` variable `buf_index`. -/
def buf_index (desc : display_buffer_descriptor) (h w : Nat) : Nat :=
  intToSizeT (wrapInt32 (wrapInt32 (wrapInt32 ((h : Int) * (u16 desc.pitch : Int)) + (w : Int)) * 3))

/-- The three statements that assemble `pixel` from `pixel_ptr[buf_index]`,
`pixel_ptr[buf_index + 1]` and `pixel_ptr[buf_index + 2]`; `buf` gives the byte at each
`size_t` offset from `pixel_ptr`. -/
def pixel_of (buf : Nat → Nat) (idx : Nat) : Nat :=
  let pixel := charToU32 CHAR_IS_SIGNED (buf idx)
  let pixel := pixel ||| u32 (charToU32 CHAR_IS_SIGNED (buf (u64 (idx + 1))) <<< 8)
  let pixel := pixel ||| u32 (charToU32 CHAR_IS_SIGNED (buf (u64 (idx + 2))) <<< 16)
  pixel

/-- The byte offset that `frame_buffer + (y + h) * data->pitch + x * 4` adds to the pointer
`frame_buffer`: the product `(y + h) * data->pitch` is evaluated in `uint32_t` and added to
the pointer, then the `int` value `x * 4` is added. -/
def row_offset (data : bcm2711_display_data) (x y h : Nat) : Nat :=
  u32 ((u16 y + h) * u32 data.pitch) + u16 x * 4

/-- The inner loop `for (w ...; w < desc->width; ++w)` with `n` iterations left,
column counter `w` and destination pointer `ptr`. -/
def write_row (desc : display_buffer_descriptor) (buf : Nat → Nat) (h : Nat) :
    Nat → Nat → Nat → FbState → FbState
  | 0, _, _, s => s
  | n + 1, w, ptr, s =>
    write_row desc buf h n (w + 1) (ptr + 4) (s.store ptr (pixel_of buf (buf_index desc h w)))

/-- The outer loop `for (h ...; h < desc->height; ++h)` with `n` iterations left and row
counter `h`. -/
def write_rows (data : bcm2711_display_data) (x y : Nat) (desc : display_buffer_descriptor)
    (buf : Nat → Nat) : Nat → Nat → FbState → FbState
  | 0, _, s => s
  | n + 1, h, s =>
    let ptr := data.virtual_framebuffer_address + row_offset data x y h
    write_rows data x y desc buf n (h + 1) (write_row desc buf h (u16 desc.width) 0 ptr s)

/-- The function `bcm2711_display_write`: return value and resulting framebuffer. The source
buffer and the driver data are read only. -/
def bcm2711_display_write (data : bcm2711_display_data) (x y : Nat)
    (desc : display_buffer_descriptor) (buf : Nat → Nat) (fb : FbState) : Int × FbState :=
  (0, write_rows data x y desc buf (u16 desc.height) 0 fb)

/-! ## Property-tag request builder -/

/-- Store of a `uint32_t` value into word `i` of a word buffer. -/
def wr32 (mbox : Nat → Nat) (i v : Nat) : Nat → Nat :=
  fun j => if j = i then u32 v else mbox j

/-- Read of word `i` of a word buffer as a `uint32_t`. -/
def rd32 (mbox : Nat → Nat) (i : Nat) : Nat := u32 (mbox i)

/-- The function `set_tag_4byte`, called on the record that starts at word `o` of `mbox`. -/
def set_tag_4byte (mbox : Nat → Nat) (o tag val : Nat) : Nat → Nat :=
  let mbox := wr32 mbox (o + 0) tag
  let mbox := wr32 mbox (o + 1) 4
  let mbox := wr32 mbox (o + 3) val
  mbox

/-- The function `set_tag_8byte`, called on the record that starts at word `o` of `mbox`. -/
def set_tag_8byte (mbox : Nat → Nat) (o tag val1 val2 : Nat) : Nat → Nat :=
  let mbox := wr32 mbox (o + 0) tag
  let mbox := wr32 mbox (o + 1) 8
  let mbox := wr32 mbox (o + 3) val1
  let mbox := wr32 mbox (o + 4) val2
  mbox

/-- The request that `bcm2711_display_init` lays out in its local array `mbox[35]`, whose
content before the first assignment is `mbox0`. -/
def build_request (config : bcm2711_display_config) (mbox0 : Nat → Nat) : Nat → Nat :=
  let mbox := wr32 mbox0 0 (35 * 4)
  let mbox := wr32 mbox 1 0
  let mbox := set_tag_8byte mbox 2 0x48003 (u16 config.width) (u16 config.height)
  let mbox := set_tag_8byte mbox 7 0x48004 (u16 config.width) (u16 config.height)
  let mbox := set_tag_8byte mbox 12 0x48009 0 0
  let mbox := set_tag_4byte mbox 17 0x48005 32
  let mbox := set_tag_4byte mbox 21 0x48006 1
  let mbox := set_tag_8byte mbox 25 0x40001 16 0
  let mbox := set_tag_4byte mbox 30 0x40008 0
  let mbox := wr32 mbox 34 0
  mbox

/-! ## Register mailbox -/

/-- Simulated peripheral. `data k` is the value returned by the `k`-th read (from 0) of the
register at word offset 0, `status k` the value returned by the `k`-th read of the register at
word offset `0x18 / 4`, and `response` the content of the shared request/response buffer once
the echo has been read. -/
structure MboxHw where
  data : Nat → Nat
  status : Nat → Nat
  response : Nat → Nat

/-- Accesses made to the peripheral so far: number of reads of the register at word offset 0,
number of reads of the status register, and the values written to the register at word offset
`0x20 / 4`, oldest first. -/
structure MboxState where
  dataReads : Nat
  statusReads : Nat
  written : List Nat
  deriving DecidableEq, Repr

/-- Flag `MBOX_FULL` of `mailbox_write`. -/
def MBOX_FULL : Nat := 0x80000000

/-- Flag `MBOX_EMPTY` of `mailbox_read`. -/
def MBOX_EMPTY : Nat := 0x40000000

/-- Channel `CH_PROP_FOR_VC` of `send_mailbox_for_vc`. -/
def CH_PROP_FOR_VC : Nat := 0x00000008

/-- The function `mailbox_write`: spin while `*mbox_reg_ptr & MBOX_FULL`, then write `value`
to word offset `0x20 / 4`. One unit of fuel is one evaluation of the loop condition; `none`
is a spin that has not ended within the fuel. -/
def mailbox_write (hw : MboxHw) (value : Nat) : Nat → MboxState → Option MboxState
  | 0, _ => none
  | fuel + 1, st =>
    let v := u32 (hw.data st.dataReads)
    let st := { st with dataReads := st.dataReads + 1 }
    if v &&& MBOX_FULL ≠ 0 then mailbox_write hw value fuel st
    else some { st with written := st.written ++ [value] }

/-- The function `mailbox_read`: spin while `*(mbox_reg_ptr + STATUS_REG_OFFSET) & MBOX_EMPTY`,
then return `*mbox_reg_ptr`. -/
def mailbox_read (hw : MboxHw) : Nat → MboxState → Option (Nat × MboxState)
  | 0, _ => none
  | fuel + 1, st =>
    let v := u32 (hw.status st.statusReads)
    let st := { st with statusReads := st.statusReads + 1 }
    if v &&& MBOX_EMPTY ≠ 0 then mailbox_read hw fuel st
    else some (u32 (hw.data st.dataReads), { st with dataReads := st.dataReads + 1 })

/-- The loop `while (1) { if (mailbox_read(mbox_reg_ptr) == mbox_data) break; }`. -/
def wait_echo (hw : MboxHw) (mbox_data : Nat) : Nat → MboxState → Option MboxState
  | 0, _ => none
  | fuel + 1, st =>
    match mailbox_read hw (fuel + 1) st with
    | none => none
    | some (v, st) => if v = mbox_data then some st else wait_echo hw mbox_data fuel st

/-- The word `mbox_data` that `send_mailbox_for_vc` transmits for a buffer at address `a`:
`(uint32_t)((uintptr_t)mbox & ~0xF) | CH_PROP_FOR_VC`. -/
def mbox_data_of (a : Nat) : Nat :=
  u32 (u64 a &&& 0xFFFFFFFFFFFFFFF0) ||| CH_PROP_FOR_VC

/-- The function `send_mailbox_for_vc` for a buffer at address `a`: the result
`mbox[1] == 0x80000000` and the accesses made, or `none` when a spin has not ended within
the fuel. -/
def send_mailbox_for_vc (hw : MboxHw) (a : Nat) (fuel : Nat) (st : MboxState) :
    Option (Bool × MboxState) :=
  let mbox_data := mbox_data_of a
  match mailbox_write hw mbox_data fuel st with
  | none => none
  | some st =>
    match wait_echo hw mbox_data fuel st with
    | none => none
    | some st => some (decide (rd32 hw.response 1 = 0x80000000), st)

/-! ## Negotiation: `bcm2711_display_init` -/

/-- Modelled from the spec: the I/O error number of `errno.h`, which is not part of the
driver source. -/
def EIO : Int := 5

/-- Modelled from the spec: the flag of the mapping service that asks for an uncached region,
declared outside the driver source. -/
def K_MEM_CACHE_NONE : Nat := 2

/-- Size `BCM2711_VIDEOCORE_MAILBOX_SIZE` of the mailbox register block. -/
def BCM2711_VIDEOCORE_MAILBOX_SIZE : Nat := 0x40

/-- Variable that receives the virtual address of a `device_map` call. -/
inductive MapTarget where
  | mbox_reg_virt_ptr
  | virtual_framebuffer_address
  deriving DecidableEq, Repr

/-- One call of the mapping service `device_map(&target, phys, size, flags)`. -/
structure MapRequest where
  target : MapTarget
  phys : Nat
  size : Nat
  flags : Nat
  deriving DecidableEq, Repr

/-- Surroundings of one run of `bcm2711_display_init`: the peripheral, the address and the
indeterminate initial content of the local array `mbox`, and the virtual address that the
mapping service returns for a physical address, a size and flags. -/
structure InitEnv where
  hw : MboxHw
  mbox_addr : Nat
  mbox0 : Nat → Nat
  device_map : Nat → Nat → Nat → Nat

/-- Outcome of a run of `bcm2711_display_init` that returns: the return value, the driver
data, the content of `mbox` handed to the mailbox, the calls of the mapping service in order,
and the accesses made to the peripheral. -/
structure InitResult where
  ret : Int
  data : bcm2711_display_data
  request : Nat → Nat
  maps : List MapRequest
  regs : MboxState

/-- The function `bcm2711_display_init`; `none` when the mailbox exchange has not ended
within the fuel. -/
def bcm2711_display_init (env : InitEnv) (config : bcm2711_display_config)
    (data : bcm2711_display_data) (fuel : Nat) : Option InitResult :=
  let request := build_request config env.mbox0
  let maps := [MapRequest.mk MapTarget.mbox_reg_virt_ptr (u32 config.videocore_address)
    BCM2711_VIDEOCORE_MAILBOX_SIZE K_MEM_CACHE_NONE]
  match send_mailbox_for_vc env.hw env.mbox_addr fuel ⟨0, 0, []⟩ with
  | none => none
  | some (ok, regs) =>
    if ok = false then some ⟨- EIO, data, request, maps, regs⟩
    else
      let mbox := env.hw.response
      let depth := rd32 mbox 20
      let framebuffer_address := rd32 mbox 28
      if depth ≠ 32 then some ⟨- EIO, data, request, maps, regs⟩
      else if framebuffer_address = 0 then some ⟨- EIO, data, request, maps, regs⟩
      else
        let order := if rd32 mbox 24 ≠ 0 then RpiPixelOrder.RGB else RpiPixelOrder.BGR
        let data := { data with pixel_order := order }
        let data := { data with physical_width := rd32 mbox 5 }
        let data := { data with physical_height := rd32 mbox 6 }
        let data := { data with framebuffer_size := rd32 mbox 29 }
        let data := { data with pitch := rd32 mbox 33 }
        let phys := framebuffer_address &&& 0x3FFFFFFF
        let virt := env.device_map phys 0x300000 K_MEM_CACHE_NONE
        let data := { data with virtual_framebuffer_address := virt }
        some ⟨0, data, request, maps ++ [MapRequest.mk MapTarget.virtual_framebuffer_address phys
          0x300000 K_MEM_CACHE_NONE], regs⟩

/-! ## Pixel format: `bcm2711_display_set_pixel_format`, `bcm2711_display_get_capabilities` -/

/-- Modelled from the spec: the not-supported error number of `errno.h`, which is not part of
the driver source. -/
def ENOTSUP : Int := 134

/-- Modelled from the spec: the one supported value of `enum display_pixel_format`, declared
in the display API header outside the driver source. -/
def PIXEL_FORMAT_RGB_888 : Nat := 1

/-- Modelled from the spec: `struct display_capabilities` of the display API header, reduced
to the fields that the driver assigns. -/
structure display_capabilities where
  x_resolution : Nat
  y_resolution : Nat
  screen_info : Nat
  current_pixel_format : Nat
  supported_pixel_formats : Nat

/-- The function `bcm2711_display_get_capabilities`. -/
def bcm2711_display_get_capabilities (config : bcm2711_display_config) : display_capabilities :=
  { x_resolution := u16 config.width
    y_resolution := u16 config.height
    screen_info := 0
    current_pixel_format := PIXEL_FORMAT_RGB_888
    supported_pixel_formats := PIXEL_FORMAT_RGB_888 }

/-- The function `bcm2711_display_set_pixel_format`: return value, driver data and
framebuffer after the call. -/
def bcm2711_display_set_pixel_format (data : bcm2711_display_data) (fb : FbState)
    (pixel_format : Nat) : Int × bcm2711_display_data × FbState :=
  if pixel_format ≠ PIXEL_FORMAT_RGB_888 then (- ENOTSUP, data, fb) else (0, data, fb)

/-! ## Derived quantities of the blit -/

/-- Word that the blit computes for the pixel in row `h`, column `w` of the region. -/
def pixel_word (desc : display_buffer_descriptor) (buf : Nat → Nat) (h w : Nat) : Nat :=
  pixel_of buf (buf_index desc h w)

/-- Address of the store that the blit makes for the pixel in row `h`, column `w`. -/
def pixel_addr (data : bcm2711_display_data) (x y h w : Nat) : Nat :=
  data.virtual_framebuffer_address + row_offset data x y h + 4 * w

/-! ## Sample inputs -/

/-- Driver data of a small display: base address 1000, pitch 16. -/
def sample_data : bcm2711_display_data := ⟨RpiPixelOrder.RGB, 1000, 64, 4, 4, 16⟩

/-- Source buffer whose first pixel is `[0x10, 0x20, 0x30]` and whose later bytes have the
top bit set. -/
def sample_buf : Nat → Nat :=
  fun i => if i = 0 then 0x10 else if i = 1 then 0x20 else if i = 2 then 0x30 else 0x80 + i % 128

/-- Framebuffer of zero bytes with no store made yet. -/
def sample_fb : FbState := ⟨fun _ => 0, []⟩

/-- Source buffer of a one-column region of 10924 rows with row pitch 65535: the pixel of row
10923 is `[0x10, 0x20, 0x30]`, at byte offset `10923 * 65535 * 3 = 2147516415`. -/
def tall_buf : Nat → Nat :=
  fun i => if i = 2147516415 then 0x10 else if i = 2147516416 then 0x20
    else if i = 2147516417 then 0x30 else 0

/-! ## Sample peripheral -/

/-- Response buffer of a successful negotiation of 1920 x 1080 at 32 bits per pixel, pitch
7680, pixel order RGB, framebuffer of 8294400 bytes at the bus address `fb_addr`. -/
def sample_response (fb_addr : Nat) : Nat → Nat :=
  fun i => if i = 1 then 0x80000000 else if i = 5 then 1920 else if i = 6 then 1080
    else if i = 20 then 32 else if i = 24 then 1 else if i = 28 then fb_addr
    else if i = 29 then 8294400 else if i = 33 then 7680 else 0

/-- Peripheral that answers the buffer at address `0x1000` on the third read of the data
register, with never a full or empty flag, and leaves `response` in the buffer. -/
def sample_hw (response : Nat → Nat) : MboxHw :=
  ⟨fun k => if k = 2 then 0x1008 else 0, fun _ => 0, response⟩

/-- Surroundings of a run at buffer address `0x1000`; the stack holds `0xDEADBEEF`, and the
mapping service returns the physical address plus `0x40000000`. -/
def sample_env (response : Nat → Nat) : InitEnv :=
  ⟨sample_hw response, 0x1000, fun _ => 0xDEADBEEF, fun phys _ _ => phys + 0x40000000⟩

/-- Configuration of a 1920 x 1080 display with the mailbox at `0xFE00B880`. -/
def sample_config : bcm2711_display_config := ⟨0xFE00B880, 1080, 1920⟩

/-- Peripheral whose data register returns the word transmitted for the buffer at `0x1000`
on every read, the first one included. -/
def echo_hw : MboxHw := ⟨fun _ => 0x1008, fun _ => 0, fun _ => 0⟩

/-! ## Message format as the specification states it -/

/-- One tag record as the message format describes it: the word offset of its tag id, the tag
id, the payload capacity in bytes, and the value words. -/
structure TagRecord where
  offset : Nat
  tag : Nat
  capacity : Nat
  values : List Nat

/-- The buffer `req` holds the record `r`: tag id in the first word, payload capacity in the
second, and the `capacity / 4` value words from the fourth word on. -/
def record_at (req : Nat → Nat) (r : TagRecord) : Prop :=
  req r.offset = r.tag ∧ req (r.offset + 1) = r.capacity ∧
    r.values.length = r.capacity / 4 ∧
    (List.range (r.capacity / 4)).map (fun i => req (r.offset + 3 + i)) = r.values

/-- The records start at `start`, each one begins where the previous one ends, a record
taking `3 + capacity / 4` words, and the last one ends at `stop`. -/
def contiguous : Nat → List TagRecord → Nat → Prop
  | start, [], stop => start = stop
  | start, r :: rs, stop => r.offset = start ∧ contiguous (start + 3 + r.capacity / 4) rs stop

/-- The seven tag records of the negotiation request, in the order of the message. -/
def expected_records (width height : Nat) : List TagRecord :=
  [⟨2, 0x48003, 8, [width, height]⟩, ⟨7, 0x48004, 8, [width, height]⟩,
   ⟨12, 0x48009, 8, [0, 0]⟩, ⟨17, 0x48005, 4, [32]⟩, ⟨21, 0x48006, 4, [1]⟩,
   ⟨25, 0x40001, 8, [16, 0]⟩, ⟨30, 0x40008, 4, [0]⟩]

theorem load32_store32_same (mem : Nat → Nat) (a v : Nat) :
    load32 (store32 mem a v) a = u32 v := by
  simp [load32, store32, u32]
  omega

theorem write_row_stores (desc : display_buffer_descriptor) (buf : Nat → Nat) (h : Nat) :
    ∀ (n w ptr : Nat) (s : FbState),
      (write_row desc buf h n w ptr s).stores =
        s.stores ++ (List.range n).map (fun k => (ptr + 4 * k, pixel_word desc buf h (w + k))) := by
  intro n
  induction n with
  | zero => intro w ptr s; simp [write_row]
  | succ n ih =>
    intro w ptr s
    rw [write_row, ih, List.range_succ_eq_map]
    simp only [FbState.store, List.append_assoc, List.map_cons, List.map_map, List.singleton_append,
      pixel_word]
    congr 2
    apply List.map_congr_left
    intro k _
    simp only [Function.comp, Nat.succ_eq_add_one]
    have e1 : ptr + 4 + 4 * k = ptr + 4 * (k + 1) := by omega
    have e2 : w + 1 + k = w + (k + 1) := by omega
    rw [e1, e2]

theorem write_rows_stores_append (data : bcm2711_display_data) (x y : Nat)
    (desc : display_buffer_descriptor) (buf : Nat → Nat) :
    ∀ (n h : Nat) (s : FbState),
      ∃ l, (write_rows data x y desc buf n h s).stores = s.stores ++ l := by
  intro n
  induction n with
  | zero => intro h s; exact ⟨[], by simp [write_rows]⟩
  | succ n ih =>
    intro h s
    obtain ⟨l, hl⟩ := ih (h + 1)
      (write_row desc buf h (u16 desc.width) 0
        (data.virtual_framebuffer_address + row_offset data x y h) s)
    refine ⟨(List.range (u16 desc.width)).map (fun k =>
      (data.virtual_framebuffer_address + row_offset data x y h + 4 * k,
        pixel_word desc buf h (0 + k))) ++ l, ?_⟩
    rw [write_rows]
    try dsimp only
    rw [hl, write_row_stores, List.append_assoc]

/-- The store made for the pixel in row `h + j`, column `k` is entry `j * width + k` of the
stores that the outer loop appends. -/
theorem write_rows_stores_get (data : bcm2711_display_data) (x y : Nat)
    (desc : display_buffer_descriptor) (buf : Nat → Nat) :
    ∀ (n h : Nat) (s : FbState) (j k : Nat), j < n → k < u16 desc.width →
      (write_rows data x y desc buf n h s).stores[s.stores.length + j * u16 desc.width + k]? =
        some (pixel_addr data x y (h + j) k, pixel_word desc buf (h + j) k) := by
  intro n
  induction n with
  | zero => intro h s j k hj; omega
  | succ n ih =>
    intro h s j k hj hk
    rw [write_rows]
    try dsimp only
    cases j with
    | zero =>
      obtain ⟨l, hl⟩ := write_rows_stores_append data x y desc buf n (h + 1)
        (write_row desc buf h (u16 desc.width) 0
          (data.virtual_framebuffer_address + row_offset data x y h) s)
      rw [hl, write_row_stores]
      simp only [Nat.zero_mul, Nat.add_zero, List.append_assoc]
      rw [List.getElem?_append_right (by omega)]
      have e : s.stores.length + k - s.stores.length = k := by omega
      rw [e, List.getElem?_append_left (by simpa using hk)]
      simp [List.getElem?_range hk, pixel_addr]
    | succ j =>
      have := ih (h + 1) (write_row desc buf h (u16 desc.width) 0
          (data.virtual_framebuffer_address + row_offset data x y h) s) j k (by omega) hk
      rw [write_row_stores] at this
      simp only [List.length_append, List.length_map, List.length_range] at this
      have e : s.stores.length + (j + 1) * u16 desc.width + k =
          s.stores.length + u16 desc.width + j * u16 desc.width + k := by
        rw [Nat.succ_mul]; omega
      have e2 : h + (j + 1) = h + 1 + j := by omega
      rw [e, e2, ← this]

/-- C1 (evaluation at the failing input): for the one-column region of 10924 rows with source
pitch 65535, the source bytes of pixel `(h, w) = (10923, 0)` at byte offsets
`(h * pitch + w) * 3 + 0, 1, 2` are `0x10, 0x20, 0x30`, whose packed value is `0x302010`, yet
the `int` index wraps, the blit reads at `size_t` offset `2^64 - 2147450881`, and the word it
stores for that pixel is `0`. -/
theorem display_write_index_overflow :
    (tall_buf ((10923 * 65535 + 0) * 3) % 256
        ||| (tall_buf ((10923 * 65535 + 0) * 3 + 1) % 256) <<< 8
        ||| (tall_buf ((10923 * 65535 + 0) * 3 + 2) % 256) <<< 16) = 0x302010 ∧
      buf_index ⟨2147516418, 1, 10924, 65535⟩ 10923 0 = 18446744073709551616 - 2147450881 ∧
      (bcm2711_display_write sample_data 0 0 ⟨2147516418, 1, 10924, 65535⟩ tall_buf
          sample_fb).2.stores[10923]? = some (1000 + 10923 * 16, 0) := by
  refine ⟨by decide, by decide, ?_⟩
  have h := write_rows_stores_get sample_data 0 0 ⟨2147516418, 1, 10924, 65535⟩ tall_buf
    10924 0 sample_fb 10923 0 (by decide) (by decide)
  have e : (sample_fb.stores.length + 10923 * u16 (1 : Nat) + 0) = 10923 := by decide
  simp only [] at h
  rw [e] at h
  rw [bcm2711_display_write]
  have e2 : u16 (10924 : Nat) = 10924 := by decide
  simp only [e2]
  rw [h]
  decide

theorem mailbox_read_some (hw : MboxHw) :
    ∀ (fuel : Nat) (st st2 : MboxState) (v : Nat), mailbox_read hw fuel st = some (v, st2) →
      v = u32 (hw.data st.dataReads) ∧ st2.dataReads = st.dataReads + 1 ∧
        st2.written = st.written := by
  intro fuel
  induction fuel with
  | zero => intro st st2 v h; simp [mailbox_read] at h
  | succ fuel ih =>
    intro st st2 v h
    rw [mailbox_read] at h
    dsimp only at h
    split at h
    · have t := ih _ _ _ h
      exact t
    · simp only [Option.some.injEq, Prod.mk.injEq] at h
      obtain ⟨h1, h2⟩ := h
      subst h1 h2
      exact ⟨rfl, rfl, rfl⟩

theorem wait_echo_some (hw : MboxHw) (w : Nat) :
    ∀ (fuel : Nat) (st st2 : MboxState), wait_echo hw w fuel st = some st2 →
      1 ≤ st2.dataReads ∧ u32 (hw.data (st2.dataReads - 1)) = w := by
  intro fuel
  induction fuel with
  | zero => intro st st2 h; simp [wait_echo] at h
  | succ fuel ih =>
    intro st st2 h
    rw [wait_echo] at h
    cases hr : mailbox_read hw (fuel + 1) st with
    | none => simp [hr] at h
    | some p =>
      obtain ⟨v, st3⟩ := p
      simp only [hr] at h
      obtain ⟨hv, hd, _⟩ := mailbox_read_some hw _ _ _ _ hr
      split at h
      · simp only [Option.some.injEq] at h
        subst h
        rename_i hvw
        refine ⟨by omega, ?_⟩
        rw [hd, Nat.add_sub_cancel, ← hv, hvw]
      · exact ih _ _ h

/-- A run of `send_mailbox_for_vc` that returns has read the echo of the transmitted word as
its last read of the data register, and its result is the comparison of word 1 of the buffer
with `0x80000000`. -/
theorem send_mailbox_some (hw : MboxHw) (a fuel : Nat) (st st2 : MboxState) ( ok : Bool)
    (h : send_mailbox_for_vc hw a fuel st = some (ok, st2)) :
    ok = decide (rd32 hw.response 1 = 0x80000000) ∧ 1 ≤ st2.dataReads ∧
      u32 (hw.data (st2.dataReads - 1)) = mbox_data_of a := by
  rw [send_mailbox_for_vc] at h
  try dsimp only at h
  cases hwr : mailbox_write hw (mbox_data_of a) fuel st with
  | none => simp [hwr] at h
  | some st3 =>
    simp only [hwr] at h
    cases he : wait_echo hw (mbox_data_of a) fuel st3 with
    | none => simp [he] at h
    | some st4 =>
      simp only [he, Option.some.injEq, Prod.mk.injEq] at h
      obtain ⟨h1, h2⟩ := h
      subst h2
      exact ⟨h1.symm, wait_echo_some hw _ _ _ _ he⟩

theorem mailbox_read_ready (hw : MboxHw) (fuel : Nat) (st : MboxState)
    (hempty : u32 (hw.status st.statusReads) &&& MBOX_EMPTY = 0) :
    mailbox_read hw (fuel + 1) st =
      some (u32 (hw.data st.dataReads),
        ⟨st.dataReads + 1, st.statusReads + 1, st.written⟩) := by
  rw [mailbox_read]
  simp [hempty]

theorem wait_echo_ready (hw : MboxHw) (w : Nat)
    (hempty : ∀ k, u32 (hw.status k) &&& MBOX_EMPTY = 0) :
    ∀ (m fuel : Nat) (st : MboxState), m < fuel →
      (∀ k, st.dataReads ≤ k → k < st.dataReads + m → u32 (hw.data k) ≠ w) →
      u32 (hw.data (st.dataReads + m)) = w →
      wait_echo hw w fuel st =
        some ⟨st.dataReads + m + 1, st.statusReads + m + 1, st.written⟩ := by
  intro m
  induction m with
  | zero =>
    intro fuel st hf _ heq
    obtain ⟨f, rfl⟩ : ∃ f, fuel = f + 1 := ⟨fuel - 1, by omega⟩
    rw [wait_echo, mailbox_read_ready hw f st (hempty _)]
    simp only [Nat.add_zero] at heq ⊢
    simp [heq]
  | succ m ih =>
    intro fuel st hf hne heq
    obtain ⟨f, rfl⟩ : ∃ f, fuel = f + 1 := ⟨fuel - 1, by omega⟩
    rw [wait_echo, mailbox_read_ready hw f st (hempty _)]
    have h0 := hne st.dataReads (by omega) (by omega)
    simp only [h0, if_false]
    rw [ih f ⟨st.dataReads + 1, st.statusReads + 1, st.written⟩ (by omega)
      (fun k hk1 hk2 => hne k (by simp only at hk1; omega) (by simp only at hk2; omega))
      (by simp only; rw [← heq]; congr 2; omega)]
    simp only [Option.some.injEq, MboxState.mk.injEq, and_true]
    omega

/-- Exchange with a responsive peripheral: when the first read of the data register has the
full flag clear, the empty flag is always clear, and the read of index `n >= 1` (counted
from 0) is the first one after the write phase that returns the transmitted word, the
exchange returns after `n + 1` reads of the data register, one of them by `mailbox_write`. -/
theorem send_mailbox_ready (hw : MboxHw) (a n fuel : Nat) (hn : 1 ≤ n) (hf : n ≤ fuel)
    (hfull : u32 (hw.data 0) &&& MBOX_FULL = 0)
    (hempty : ∀ k, u32 (hw.status k) &&& MBOX_EMPTY = 0)
    (hne : ∀ k, 1 ≤ k → k < n → u32 (hw.data k) ≠ mbox_data_of a)
    (heq : u32 (hw.data n) = mbox_data_of a) :
    send_mailbox_for_vc hw a fuel ⟨0, 0, []⟩ =
      some (decide (rd32 hw.response 1 = 0x80000000), ⟨n + 1, n, [mbox_data_of a]⟩) := by
  obtain ⟨f, rfl⟩ : ∃ f, fuel = f + 1 := ⟨fuel - 1, by omega⟩
  have hwr : mailbox_write hw (mbox_data_of a) (f + 1) ⟨0, 0, []⟩ =
      some ⟨1, 0, [mbox_data_of a]⟩ := by
    rw [mailbox_write]
    simp [hfull]
  have hwe := wait_echo_ready hw (mbox_data_of a) hempty (n - 1) (f + 1)
    ⟨1, 0, [mbox_data_of a]⟩ (by omega)
    (fun k hk1 hk2 => hne k (by simp only at hk1; omega) (by simp only at hk2; omega))
    (by simp only; rw [← heq]; congr 2; omega)
  rw [send_mailbox_for_vc]
  simp only [hwr, hwe]
  have e1 : 1 + (n - 1) + 1 = n + 1 := by omega
  have e2 : 0 + (n - 1) + 1 = n := by omega
  rw [e1, e2]

/-- A responsive peripheral lets the exchange return for every fuel from `n` on. -/
theorem send_mailbox_returns (hw : MboxHw) (a n fuel : Nat) (hn : 1 ≤ n) (hf : n ≤ fuel)
    (hfull : u32 (hw.data 0) &&& MBOX_FULL = 0)
    (hempty : ∀ k, u32 (hw.status k) &&& MBOX_EMPTY = 0)
    (hne : ∀ k, 1 ≤ k → k < n → u32 (hw.data k) ≠ mbox_data_of a)
    (heq : u32 (hw.data n) = mbox_data_of a) :
    (send_mailbox_for_vc hw a fuel ⟨0, 0, []⟩).isSome = true := by
  rw [send_mailbox_ready hw a n fuel hn hf hfull hempty hne heq]
  rfl

/-! ## Theorems on the negotiation -/

theorem init_of_send (env : InitEnv) (fuel : Nat)
    (hret : (send_mailbox_for_vc env.hw env.mbox_addr fuel ⟨0, 0, []⟩).isSome = true) :
    ∃ regs, send_mailbox_for_vc env.hw env.mbox_addr fuel ⟨0, 0, []⟩ =
      some (decide (rd32 env.hw.response 1 = 0x80000000), regs) := by
  cases hs : send_mailbox_for_vc env.hw env.mbox_addr fuel ⟨0, 0, []⟩ with
  | none => rw [hs] at hret; simp at hret
  | some p =>
    obtain ⟨ok, regs⟩ := p
    obtain ⟨h1, _⟩ := send_mailbox_some _ _ _ _ _ _ hs
    exact ⟨regs, by rw [h1]⟩

/-- C3: when the exchange returns with status word `0x80000000`, depth 32 and a framebuffer
address that is nonzero after translation, `bcm2711_display_init` returns 0 and the driver
data holds the physical size, pitch and framebuffer size words of the response, with pixel
order RGB for a nonzero pixel-order word and BGR for zero. -/
theorem init_success (env : InitEnv) (config : bcm2711_display_config)
    (data : bcm2711_display_data) (fuel : Nat)
    (hret : (send_mailbox_for_vc env.hw env.mbox_addr fuel ⟨0, 0, []⟩).isSome = true)
    (hstatus : rd32 env.hw.response 1 = 0x80000000)
    (hdepth : rd32 env.hw.response 20 = 32)
    (haddr : rd32 env.hw.response 28 &&& 0x3FFFFFFF ≠ 0) :
    ∃ r, bcm2711_display_init env config data fuel = some r ∧ r.ret = 0 ∧
      r.data.physical_width = rd32 env.hw.response 5 ∧
      r.data.physical_height = rd32 env.hw.response 6 ∧
      r.data.pitch = rd32 env.hw.response 33 ∧
      r.data.framebuffer_size = rd32 env.hw.response 29 ∧
      r.data.pixel_order =
        (if rd32 env.hw.response 24 ≠ 0 then RpiPixelOrder.RGB else RpiPixelOrder.BGR) := by
  obtain ⟨regs, hs⟩ := init_of_send env fuel hret
  have hraw : rd32 env.hw.response 28 ≠ 0 := by
    intro h0
    rw [h0] at haddr
    simp at haddr
  simp only [bcm2711_display_init, hs, hstatus, hdepth]
  simp [hraw]

/-- Witness for C3: the response that encodes 1920 x 1080 with pitch 7680. -/
theorem init_success_witness :
    ∃ r, bcm2711_display_init (sample_env (sample_response 0xC0200000)) sample_config
        sample_data 4 = some r ∧ r.ret = 0 ∧
      r.data.physical_width = 1920 ∧ r.data.physical_height = 1080 ∧ r.data.pitch = 7680 ∧
      r.data.framebuffer_size = 8294400 ∧ r.data.pixel_order = RpiPixelOrder.RGB :=
  init_success (sample_env (sample_response 0xC0200000)) sample_config sample_data 4
    (by decide) (by decide) (by decide) (by decide)

/-- C4 (counterexample): the bus address `0xC0000000` is zero after translation, yet for
a successful response of depth 32 that carries it `bcm2711_display_init` returns 0 and
requests a framebuffer mapping of physical address 0. -/
theorem init_accepts_alias_of_zero :
    rd32 (sample_env (sample_response 0xC0000000)).hw.response 1 = 0x80000000 ∧
    rd32 (sample_env (sample_response 0xC0000000)).hw.response 20 = 32 ∧
    rd32 (sample_env (sample_response 0xC0000000)).hw.response 28 &&& 0x3FFFFFFF = 0 ∧
    (bcm2711_display_init (sample_env (sample_response 0xC0000000)) sample_config
        sample_data 4).map (fun r => (r.ret, r.maps)) =
      some (0, [⟨MapTarget.mbox_reg_virt_ptr, 0xFE00B880, 0x40, K_MEM_CACHE_NONE⟩,
        ⟨MapTarget.virtual_framebuffer_address, 0, 0x300000, K_MEM_CACHE_NONE⟩]) := by
  decide

/-- C4 (amended): when the exchange returns with a successful status word and depth 32 and
the framebuffer address word of the response is zero as returned, before translation,
`bcm2711_display_init` fails with `- EIO`, requests no framebuffer mapping and leaves the
driver data as it was. -/
theorem init_rejects_zero_address (env : InitEnv) (config : bcm2711_display_config)
    (data : bcm2711_display_data) (fuel : Nat)
    (hret : (send_mailbox_for_vc env.hw env.mbox_addr fuel ⟨0, 0, []⟩).isSome = true)
    (hstatus : rd32 env.hw.response 1 = 0x80000000)
    (hdepth : rd32 env.hw.response 20 = 32)
    (haddr : rd32 env.hw.response 28 = 0) :
    ∃ r, bcm2711_display_init env config data fuel = some r ∧ r.ret = - EIO ∧
      (∀ m, m ∈ r.maps → m.target ≠ MapTarget.virtual_framebuffer_address) ∧
      r.data = data := by
  obtain ⟨regs, hs⟩ := init_of_send env fuel hret
  simp only [bcm2711_display_init, hs, hstatus, hdepth]
  simp [haddr]

/-- Witness for C4 (amended): the response whose framebuffer address word is 0. -/
theorem init_rejects_zero_address_witness :
    ∃ r, bcm2711_display_init (sample_env (sample_response 0)) sample_config sample_data 4 =
        some r ∧ r.ret = - EIO ∧
      (∀ m, m ∈ r.maps → m.target ≠ MapTarget.virtual_framebuffer_address) ∧
      r.data = sample_data :=
  init_rejects_zero_address (sample_env (sample_response 0)) sample_config sample_data 4
    (by decide) (by decide) (by decide) (by decide)

/-- C5: when the exchange returns with a successful status word and the depth word of the
response differs from 32, `bcm2711_display_init` returns `- EIO`, whatever the other words
of the response are. -/
theorem init_rejects_depth (env : InitEnv) (config : bcm2711_display_config)
    (data : bcm2711_display_data) (fuel : Nat)
    (hret : (send_mailbox_for_vc env.hw env.mbox_addr fuel ⟨0, 0, []⟩).isSome = true)
    (hstatus : rd32 env.hw.response 1 = 0x80000000)
    (hdepth : rd32 env.hw.response 20 ≠ 32) :
    ∃ r, bcm2711_display_init env config data fuel = some r ∧ r.ret = - EIO := by
  obtain ⟨regs, hs⟩ := init_of_send env fuel hret
  simp only [bcm2711_display_init, hs, hstatus]
  simp [hdepth]

/-- Witness for C5: the sample response with its depth word replaced by 16. -/
theorem init_rejects_depth_witness :
    ∃ r, bcm2711_display_init
        (sample_env (fun i => if i = 20 then 16 else sample_response 0xC0200000 i))
        sample_config sample_data 4 = some r ∧ r.ret = - EIO :=
  init_rejects_depth
    (sample_env (fun i => if i = 20 then 16 else sample_response 0xC0200000 i))
    sample_config sample_data 4 (by decide) (by decide) (by decide)

/-- C6: a run of `send_mailbox_for_vc` that returns has read the echo of the transmitted word
as its last read of the data register, and its result is true exactly when word 1 of the
buffer is `0x80000000`; when the result is false, `bcm2711_display_init` returns `- EIO`. -/
theorem exchange_status (env : InitEnv) (config : bcm2711_display_config)
    (data : bcm2711_display_data) (fuel : Nat) (st st2 : MboxState) ( ok : Bool)
    (h : send_mailbox_for_vc env.hw env.mbox_addr fuel st = some (ok, st2)) :
    (ok = true ↔ rd32 env.hw.response 1 = 0x80000000) ∧
    (1 ≤ st2.dataReads ∧ u32 (env.hw.data (st2.dataReads - 1)) = mbox_data_of env.mbox_addr) ∧
    (ok = false → st = ⟨0, 0, []⟩ →
      ∃ r, bcm2711_display_init env config data fuel = some r ∧ r.ret = - EIO) := by
  obtain ⟨h1, h2⟩ := send_mailbox_some _ _ _ _ _ _ h
  refine ⟨by rw [h1]; simp, h2, ?_⟩
  intro hok hst
  subst hst
  subst hok
  simp [bcm2711_display_init, h]

/-- Witness for C6: a response whose status word is the error code `0x80000001`. -/
theorem exchange_status_witness :
    ((false = true ↔ rd32 (sample_env (fun _ => 0x80000001)).hw.response 1 = 0x80000000) ∧
    (1 ≤ (MboxState.mk 3 2 [0x1008]).dataReads ∧
      u32 ((sample_env (fun _ => 0x80000001)).hw.data ((MboxState.mk 3 2 [0x1008]).dataReads - 1))
        = mbox_data_of (sample_env (fun _ => 0x80000001)).mbox_addr) ∧
    (false = false → (MboxState.mk 0 0 []) = ⟨0, 0, []⟩ →
      ∃ r, bcm2711_display_init (sample_env (fun _ => 0x80000001)) sample_config sample_data 4 =
        some r ∧ r.ret = - EIO)) :=
  exchange_status (sample_env (fun _ => 0x80000001)) sample_config sample_data 4
    ⟨0, 0, []⟩ ⟨3, 2, [0x1008]⟩ false (by decide)

/-- C7 (evaluation at the failing input): with a data register that returns the transmitted
word `0x1008` already on its first read, and no full or empty flag, the exchange makes two
reads of the data register, for every fuel that lets it return: `mailbox_write` polls the
data register for the full flag and consumes the first value. -/
theorem exchange_reads_twice :
    u32 (echo_hw.data 0) = mbox_data_of 0x1000 ∧
    u32 (echo_hw.data 0) &&& MBOX_FULL = 0 ∧
    send_mailbox_for_vc echo_hw 0x1000 0 ⟨0, 0, []⟩ = none ∧
    ∀ fuel, 1 ≤ fuel →
      send_mailbox_for_vc echo_hw 0x1000 fuel ⟨0, 0, []⟩ =
        some (false, ⟨2, 1, [0x1008]⟩) := by
  refine ⟨by decide, by decide, by decide, ?_⟩
  intro fuel hf
  have h := send_mailbox_ready echo_hw 0x1000 1 fuel (by omega) hf (by decide)
    (fun _ => (by decide : u32 0 &&& MBOX_EMPTY = 0)) (fun k h1 h2 => by omega) (by decide)
  rw [h]
  decide

/-! ## Theorems on the request builder -/

/-- Neither builder writes the third word of the record. -/
theorem set_tag_length_word (mbox : Nat → Nat) (o tag val val2 : Nat) :
    set_tag_4byte mbox o tag val (o + 2) = mbox (o + 2) ∧
      set_tag_8byte mbox o tag val val2 (o + 2) = mbox (o + 2) := by
  simp [set_tag_4byte, set_tag_8byte, wr32]

/-- C8: the request built by `bcm2711_display_init` has word 0 equal to 140, the byte size of
its 35 words, word 1 equal to 0, then the seven tag records `0x48003`, `0x48004`, `0x48009`,
`0x48005`, `0x48006`, `0x40001`, `0x40008` with their capacities and values, contiguous from
word 2 to word 34, and the zero terminator in word 34, the last of the 35 words. -/
theorem request_layout (config : bcm2711_display_config) (mbox0 : Nat → Nat)
    (hw : config.width < 65536) (hh : config.height < 65536) :
    build_request config mbox0 0 = 140 ∧ 140 = 35 * 4 ∧
    build_request config mbox0 1 = 0 ∧
    (∀ r, r ∈ expected_records config.width config.height →
      record_at (build_request config mbox0) r) ∧
    contiguous 2 (expected_records config.width config.height) 34 ∧
    build_request config mbox0 34 = 0 ∧ 34 + 1 = 35 := by
  have e1 : config.width % 65536 = config.width := Nat.mod_eq_of_lt hw
  have e2 : config.height % 65536 = config.height := Nat.mod_eq_of_lt hh
  have e3 : config.width % 4294967296 = config.width := Nat.mod_eq_of_lt (by omega)
  have e4 : config.height % 4294967296 = config.height := Nat.mod_eq_of_lt (by omega)
  refine ⟨?_, rfl, ?_, ?_, ?_, ?_, rfl⟩
  · simp [build_request, set_tag_8byte, set_tag_4byte, wr32, u32]
  · simp [build_request, set_tag_8byte, set_tag_4byte, wr32, u32]
  · intro r hr
    simp only [expected_records, List.mem_cons, List.mem_singleton, List.not_mem_nil,
      or_false] at hr
    rcases hr with h | h | h | h | h | h | h <;> subst h <;>
      simp [record_at, build_request, set_tag_8byte, set_tag_4byte, wr32, u32, u16,
        List.range_succ, e1, e2, e3, e4]
  · simp [contiguous, expected_records]
  · simp [build_request, set_tag_8byte, set_tag_4byte, wr32, u32]

/-- Witness for C8: the request for a 1920 x 1080 display built over a stack that holds
`0xDEADBEEF`. -/
theorem request_layout_witness :
    build_request sample_config (fun _ => 0xDEADBEEF) 0 = 140 ∧ 140 = 35 * 4 ∧
    build_request sample_config (fun _ => 0xDEADBEEF) 1 = 0 ∧
    (∀ r, r ∈ expected_records 1920 1080 →
      record_at (build_request sample_config (fun _ => 0xDEADBEEF)) r) ∧
    contiguous 2 (expected_records 1920 1080) 34 ∧
    build_request sample_config (fun _ => 0xDEADBEEF) 34 = 0 ∧ 34 + 1 = 35 :=
  request_layout sample_config (fun _ => 0xDEADBEEF) (by decide) (by decide)

/-- C9 (evaluation at the failing input): over a stack that holds `0xDEADBEEF`, the third
word of each of the seven tag records of the request is still `0xDEADBEEF`, and so is the
third word of a record written by `set_tag_4byte` or `set_tag_8byte`. -/
theorem request_length_words_stale :
    [4, 9, 14, 19, 23, 27, 32].map (build_request sample_config (fun _ => 0xDEADBEEF)) =
      [0xDEADBEEF, 0xDEADBEEF, 0xDEADBEEF, 0xDEADBEEF, 0xDEADBEEF, 0xDEADBEEF, 0xDEADBEEF] ∧
    set_tag_4byte (fun _ => 0xDEADBEEF) 0 0x48005 32 2 = 0xDEADBEEF ∧
    set_tag_8byte (fun _ => 0xDEADBEEF) 0 0x48003 1920 1080 2 = 0xDEADBEEF := by
  decide

/-- C10: after `set_tag_4byte` writes a record at word `o`, word `o` reads back the tag id,
word `o + 1` reads back 4 and word `o + 3` reads back the value; after `set_tag_8byte`, word
`o` reads back the tag id, word `o + 1` reads back 8, word `o + 3` the first value and word
`o + 4` the second. -/
theorem set_tag_round_trip (mbox : Nat → Nat) (o t v v1 v2 : Nat)
    (ht : t < 4294967296) (hv : v < 4294967296) (hv1 : v1 < 4294967296)
    (hv2 : v2 < 4294967296) :
    (rd32 (set_tag_4byte mbox o t v) o = t ∧ rd32 (set_tag_4byte mbox o t v) (o + 1) = 4 ∧
      rd32 (set_tag_4byte mbox o t v) (o + 3) = v) ∧
    (rd32 (set_tag_8byte mbox o t v1 v2) o = t ∧
      rd32 (set_tag_8byte mbox o t v1 v2) (o + 1) = 8 ∧
      rd32 (set_tag_8byte mbox o t v1 v2) (o + 3) = v1 ∧
      rd32 (set_tag_8byte mbox o t v1 v2) (o + 4) = v2) := by
  simp [rd32, set_tag_4byte, set_tag_8byte, wr32, u32, Nat.mod_eq_of_lt, ht, hv, hv1, hv2]

/-- Witness for C10: the depth record and the physical-size record written at word 17 of a
buffer that holds `0xDEADBEEF`. -/
theorem set_tag_round_trip_witness :
    (rd32 (set_tag_4byte (fun _ => 0xDEADBEEF) 17 0x48005 32) 17 = 0x48005 ∧
      rd32 (set_tag_4byte (fun _ => 0xDEADBEEF) 17 0x48005 32) (17 + 1) = 4 ∧
      rd32 (set_tag_4byte (fun _ => 0xDEADBEEF) 17 0x48005 32) (17 + 3) = 32) ∧
    (rd32 (set_tag_8byte (fun _ => 0xDEADBEEF) 17 0x48005 1920 1080) 17 = 0x48005 ∧
      rd32 (set_tag_8byte (fun _ => 0xDEADBEEF) 17 0x48005 1920 1080) (17 + 1) = 8 ∧
      rd32 (set_tag_8byte (fun _ => 0xDEADBEEF) 17 0x48005 1920 1080) (17 + 3) = 1920 ∧
      rd32 (set_tag_8byte (fun _ => 0xDEADBEEF) 17 0x48005 1920 1080) (17 + 4) = 1080) :=
  set_tag_round_trip (fun _ => 0xDEADBEEF) 17 0x48005 32 1920 1080 (by decide) (by decide)
    (by decide) (by decide)

/-! ## Theorems on the write path and the pixel order -/

theorem write_rows_pixel_order (data : bcm2711_display_data) (o : RpiPixelOrder) (x y : Nat)
    (desc : display_buffer_descriptor) (buf : Nat → Nat) :
    ∀ (n h : Nat) (s : FbState),
      write_rows { data with pixel_order := o } x y desc buf n h s =
        write_rows data x y desc buf n h s := by
  intro n
  induction n with
  | zero => intro h s; rw [write_rows, write_rows]
  | succ n ih =>
    intro h s
    rw [write_rows, write_rows]
    exact ih _ _

/-- C11: `bcm2711_display_write` does not consult the negotiated pixel order: two driver
states that differ only in `pixel_order` give, for the same position, descriptor, source
buffer and initial framebuffer, the same return value and the same resulting framebuffer. -/
theorem display_write_ignores_pixel_order (data : bcm2711_display_data)
    (o1 o2 : RpiPixelOrder) (x y : Nat) (desc : display_buffer_descriptor) (buf : Nat → Nat)
    (fb : FbState) :
    bcm2711_display_write { data with pixel_order := o1 } x y desc buf fb =
      bcm2711_display_write { data with pixel_order := o2 } x y desc buf fb := by
  rw [bcm2711_display_write, bcm2711_display_write, write_rows_pixel_order,
    write_rows_pixel_order data o2]

/-- C12: a negotiation that succeeds requests exactly one framebuffer mapping: of the
physical address `framebuffer_address & 0x3FFFFFFF`, which is the address word of the
response modulo `2 ^ 30`, with the fixed size `0x300000`, uncached, whatever framebuffer size
the response reports; the driver keeps the virtual address that the mapping returns. -/
theorem init_maps_framebuffer (env : InitEnv) (config : bcm2711_display_config)
    (data : bcm2711_display_data) (fuel : Nat) (r : InitResult)
    (h : bcm2711_display_init env config data fuel = some r) (hok : r.ret = 0) :
    r.maps.filter (fun m => decide (m.target = MapTarget.virtual_framebuffer_address)) =
      [⟨MapTarget.virtual_framebuffer_address, rd32 env.hw.response 28 &&& 0x3FFFFFFF,
        0x300000, K_MEM_CACHE_NONE⟩] ∧
    rd32 env.hw.response 28 &&& 0x3FFFFFFF = rd32 env.hw.response 28 % 2 ^ 30 ∧
    r.data.virtual_framebuffer_address =
      env.device_map (rd32 env.hw.response 28 &&& 0x3FFFFFFF) 0x300000 K_MEM_CACHE_NONE ∧
    r.data.framebuffer_size = rd32 env.hw.response 29 := by
  have hmask : rd32 env.hw.response 28 &&& 0x3FFFFFFF = rd32 env.hw.response 28 % 2 ^ 30 :=
    Nat.and_pow_two_sub_one_eq_mod _ 30
  have hne : (- EIO : Int) ≠ 0 := by decide
  rw [bcm2711_display_init] at h
  cases hs : send_mailbox_for_vc env.hw env.mbox_addr fuel ⟨0, 0, []⟩ with
  | none => simp [hs] at h
  | some p =>
    obtain ⟨ok, regs⟩ := p
    simp only [hs] at h
    split at h
    · simp only [Option.some.injEq] at h
      subst h
      exact absurd hok hne
    · split at h
      · simp only [Option.some.injEq] at h
        subst h
        exact absurd hok hne
      · split at h
        · simp only [Option.some.injEq] at h
          subst h
          exact absurd hok hne
        · simp only [Option.some.injEq] at h
          subst h
          refine ⟨?_, hmask, rfl, rfl⟩
          simp

/-- Witness for C12: the negotiation of the sample display at bus address `0xC0200000`. -/
theorem init_maps_framebuffer_witness :
    ∃ r, bcm2711_display_init (sample_env (sample_response 0xC0200000)) sample_config
        sample_data 4 = some r ∧ r.ret = 0 ∧
      r.maps.filter (fun m => decide (m.target = MapTarget.virtual_framebuffer_address)) =
        [⟨MapTarget.virtual_framebuffer_address, 0x200000, 0x300000, K_MEM_CACHE_NONE⟩] := by
  obtain ⟨r, hr⟩ := Option.isSome_iff_exists.mp
    (by decide : (bcm2711_display_init (sample_env (sample_response 0xC0200000)) sample_config
      sample_data 4).isSome = true)
  have hok : r.ret = 0 := by
    have e : (bcm2711_display_init (sample_env (sample_response 0xC0200000)) sample_config
      sample_data 4).map (fun r => r.ret) = some 0 := by decide
    rw [hr] at e
    simpa using e
  exact ⟨r, hr, hok, (init_maps_framebuffer _ _ _ _ r hr hok).1⟩

/-! ## Theorems on the transmitted word -/

/-- Masking with `n` one bits above four zero bits keeps bits 4 to `n + 3`. -/
theorem and_high_mask (x n : Nat) :
    x &&& ((2 ^ n - 1) <<< 4) = (x % 2 ^ (n + 4)) / 16 * 16 := by
  have e : (x % 2 ^ (n + 4)) / 16 * 16 = ((x % 2 ^ (n + 4)) >>> 4) <<< 4 := by
    rw [Nat.shiftLeft_eq, Nat.shiftRight_eq_div_pow]
  rw [e]
  apply Nat.eq_of_testBit_eq
  intro i
  simp only [Nat.testBit_and, Nat.testBit_shiftLeft, Nat.testBit_shiftRight,
    Nat.testBit_mod_two_pow, Nat.testBit_two_pow_sub_one]
  by_cases h4 : 4 ≤ i
  · have e2 : 4 + (i - 4) = i := by omega
    rw [e2]
    by_cases hn : i - 4 < n
    · have hn2 : i < n + 4 := by omega
      simp [h4, hn, hn2]
    · have hn2 : ¬ i < n + 4 := by omega
      simp [h4, hn, hn2]
  · simp [h4]

theorem mbox_data_of_eq (a : Nat) :
    mbox_data_of a = 16 * ((a / 16) % 268435456) + 8 := by
  have hm : (0xFFFFFFFFFFFFFFF0 : Nat) = (2 ^ 60 - 1) <<< 4 := by decide
  have h := Nat.mul_add_lt_is_or (i := 4) (b := 8) (by decide) ((a / 16) % 268435456)
  rw [mbox_data_of, u32, u64, hm, and_high_mask, CH_PROP_FOR_VC]
  have e : a % 18446744073709551616 % 2 ^ (60 + 4) / 16 * 16 % 4294967296 =
      2 ^ 4 * ((a / 16) % 268435456) := by
    norm_num
    omega
  rw [e, ← h]

theorem mailbox_write_written (hw : MboxHw) (v : Nat) :
    ∀ (fuel : Nat) (st st2 : MboxState), mailbox_write hw v fuel st = some st2 →
      st2.written = st.written ++ [v] := by
  intro fuel
  induction fuel with
  | zero => intro st st2 h; simp [mailbox_write] at h
  | succ fuel ih =>
    intro st st2 h
    rw [mailbox_write] at h
    dsimp only at h
    split at h
    · have t := ih _ _ h
      exact t
    · simp only [Option.some.injEq] at h
      subst h
      rfl

theorem wait_echo_written (hw : MboxHw) (w : Nat) :
    ∀ (fuel : Nat) (st st2 : MboxState), wait_echo hw w fuel st = some st2 →
      st2.written = st.written := by
  intro fuel
  induction fuel with
  | zero => intro st st2 h; simp [wait_echo] at h
  | succ fuel ih =>
    intro st st2 h
    rw [wait_echo] at h
    cases hr : mailbox_read hw (fuel + 1) st with
    | none => simp [hr] at h
    | some p =>
      obtain ⟨v, st3⟩ := p
      simp only [hr] at h
      obtain ⟨_, _, hwr⟩ := mailbox_read_some hw _ _ _ _ hr
      split at h
      · simp only [Option.some.injEq] at h
        subst h
        exact hwr
      · rw [ih _ _ h, hwr]

/-- A run of `send_mailbox_for_vc` that returns has written exactly one word to the write
register, the word `mbox_data`. -/
theorem send_mailbox_written (hw : MboxHw) (a fuel : Nat) (st st2 : MboxState) ( ok : Bool)
    (h : send_mailbox_for_vc hw a fuel st = some (ok, st2)) :
    st2.written = st.written ++ [mbox_data_of a] := by
  rw [send_mailbox_for_vc] at h
  try dsimp only at h
  cases hwr : mailbox_write hw (mbox_data_of a) fuel st with
  | none => simp [hwr] at h
  | some st3 =>
    simp only [hwr] at h
    cases he : wait_echo hw (mbox_data_of a) fuel st3 with
    | none => simp [he] at h
    | some st4 =>
      simp only [he, Option.some.injEq, Prod.mk.injEq] at h
      obtain ⟨_, h2⟩ := h
      subst h2
      rw [wait_echo_written hw _ _ _ _ he, mailbox_write_written hw _ _ _ _ hwr]

/-- C13: the word that `send_mailbox_for_vc` transmits for a request buffer at address `a` is
`mbox_data_of a`, for every run that returns; its low 4 bits are the channel 8 and its bits
4 to 31 are bits 4 to 31 of `a`; when `a` is 16-byte aligned and below `2 ^ 32` the word is
`a | 8`, and clearing its low 4 bits gives back `a`. -/
theorem transmitted_word (a : Nat) :
    (∀ (hw : MboxHw) (fuel : Nat) (st2 : MboxState) ( ok : Bool),
      send_mailbox_for_vc hw a fuel ⟨0, 0, []⟩ = some (ok, st2) →
        st2.written = [mbox_data_of a]) ∧
    mbox_data_of a < 2 ^ 32 ∧
    mbox_data_of a % 16 = CH_PROP_FOR_VC ∧
    mbox_data_of a / 16 % 2 ^ 28 = a / 16 % 2 ^ 28 ∧
    (a % 16 = 0 → a < 2 ^ 32 →
      mbox_data_of a = a ||| 8 ∧ mbox_data_of a &&& 0xFFFFFFF0 = a) := by
  have e := mbox_data_of_eq a
  refine ⟨?_, by rw [e]; norm_num; omega, by rw [e, CH_PROP_FOR_VC]; omega,
    by rw [e]; norm_num; omega, ?_⟩
  · intro hw fuel st2 ok h
    have hw1 := send_mailbox_written hw a fuel _ _ _ h
    simpa using hw1
  intro hal hlt
  have hm : (0xFFFFFFF0 : Nat) = (2 ^ 28 - 1) <<< 4 := by decide
  have hor := Nat.mul_add_lt_is_or (i := 4) (b := 8) (by decide) (a / 16)
  have ha : 2 ^ 4 * (a / 16) = a := by norm_num; omega
  rw [ha] at hor
  constructor
  · rw [e, ← hor]
    norm_num at hlt ⊢
    omega
  · rw [hm, and_high_mask, e]
    norm_num at hlt ⊢
    omega

/-- Witness for C13: the exchange of the sample peripheral for the buffer at `0x1000`
transmits `0x1008`. -/
theorem transmitted_word_witness :
    (MboxState.mk 3 2 [0x1008]).written = [mbox_data_of 0x1000] ∧
    mbox_data_of 0x1000 < 2 ^ 32 ∧
    mbox_data_of 0x1000 % 16 = CH_PROP_FOR_VC ∧
    mbox_data_of 0x1000 / 16 % 2 ^ 28 = 0x1000 / 16 % 2 ^ 28 ∧
    (mbox_data_of 0x1000 = 0x1000 ||| 8 ∧ mbox_data_of 0x1000 &&& 0xFFFFFFF0 = 0x1000) :=
  have t := transmitted_word 0x1000
  ⟨t.1 (sample_hw (sample_response 0xC0200000)) 4 ⟨3, 2, [0x1008]⟩ true (by decide),
    t.2.1, t.2.2.1, t.2.2.2.1, t.2.2.2.2 (by decide) (by decide)⟩

/-! ## Theorems on failed initialization and on the pixel format -/

/-- C14: a run of `bcm2711_display_init` that returns an error leaves every field of the
driver data as it was before the call and requests no framebuffer mapping; the error is
`-EIO`, and it is returned when the status word is not `0x80000000`, the depth is not 32 or
the framebuffer address word is 0. -/
theorem init_failure_atomic (env : InitEnv) (config : bcm2711_display_config)
    (data : bcm2711_display_data) (fuel : Nat) (r : InitResult)
    (h : bcm2711_display_init env config data fuel = some r) (herr : r.ret ≠ 0) :
    r.data = data ∧
    (∀ m, m ∈ r.maps → m.target ≠ MapTarget.virtual_framebuffer_address) ∧
    r.ret = - EIO ∧
    (rd32 env.hw.response 1 ≠ 0x80000000 ∨ rd32 env.hw.response 20 ≠ 32 ∨
      rd32 env.hw.response 28 = 0) := by
  rw [bcm2711_display_init] at h
  cases hs : send_mailbox_for_vc env.hw env.mbox_addr fuel ⟨0, 0, []⟩ with
  | none => simp [hs] at h
  | some p =>
    obtain ⟨ok, regs⟩ := p
    obtain ⟨hok, _⟩ := send_mailbox_some _ _ _ _ _ _ hs
    simp only [hs] at h
    split at h
    · rename_i hfalse
      simp only [Option.some.injEq] at h
      subst h
      refine ⟨rfl, by simp, rfl, Or.inl ?_⟩
      intro hst
      rw [hok, hst] at hfalse
      simp at hfalse
    · split at h
      · rename_i hdepth
        simp only [Option.some.injEq] at h
        subst h
        exact ⟨rfl, by simp, rfl, Or.inr (Or.inl hdepth)⟩
      · split at h
        · rename_i haddr
          simp only [Option.some.injEq] at h
          subst h
          exact ⟨rfl, by simp, rfl, Or.inr (Or.inr haddr)⟩
        · simp only [Option.some.injEq] at h
          subst h
          exact absurd rfl herr

/-- Witness for C14: the negotiation whose response has depth 16. -/
theorem init_failure_atomic_witness :
    ∃ r, bcm2711_display_init
        (sample_env (fun i => if i = 20 then 16 else sample_response 0xC0200000 i))
        sample_config sample_data 4 = some r ∧ r.ret ≠ 0 ∧ r.data = sample_data ∧
      (∀ m, m ∈ r.maps → m.target ≠ MapTarget.virtual_framebuffer_address) := by
  obtain ⟨r, hr⟩ := Option.isSome_iff_exists.mp
    (by decide : (bcm2711_display_init
      (sample_env (fun i => if i = 20 then 16 else sample_response 0xC0200000 i))
      sample_config sample_data 4).isSome = true)
  have herr : r.ret ≠ 0 := by
    have e : (bcm2711_display_init
      (sample_env (fun i => if i = 20 then 16 else sample_response 0xC0200000 i))
      sample_config sample_data 4).map (fun r => r.ret) = some (- EIO) := by decide
    rw [hr] at e
    simp only [Option.map_some', Option.some.injEq] at e
    rw [e]
    decide
  have t := init_failure_atomic _ _ _ _ r hr herr
  exact ⟨r, hr, herr, t.1, t.2.1⟩

/-- C15: `bcm2711_display_set_pixel_format` returns 0 exactly when the requested format is
`PIXEL_FORMAT_RGB_888` and `-ENOTSUP` for every other format, and in both cases leaves the
driver data and the framebuffer as they were. -/
theorem set_pixel_format_result (data : bcm2711_display_data) (fb : FbState)
    (pixel_format : Nat) :
    ((bcm2711_display_set_pixel_format data fb pixel_format).1 = 0 ↔
      pixel_format = PIXEL_FORMAT_RGB_888) ∧
    (pixel_format ≠ PIXEL_FORMAT_RGB_888 →
      (bcm2711_display_set_pixel_format data fb pixel_format).1 = - ENOTSUP) ∧
    (bcm2711_display_set_pixel_format data fb pixel_format).2 = (data, fb) := by
  rw [bcm2711_display_set_pixel_format]
  by_cases hf : pixel_format = PIXEL_FORMAT_RGB_888
  · simp [hf]
  · have hne : (- ENOTSUP : Int) ≠ 0 := by decide
    simp [hf, hne]

/-- Witness for C15: the request of format 2, which is not the supported format 1. -/
theorem set_pixel_format_result_witness :
    ((bcm2711_display_set_pixel_format sample_data sample_fb 2).1 = 0 ↔
      2 = PIXEL_FORMAT_RGB_888) ∧
    (bcm2711_display_set_pixel_format sample_data sample_fb 2).1 = - ENOTSUP ∧
    (bcm2711_display_set_pixel_format sample_data sample_fb 2).2 = (sample_data, sample_fb) :=
  have t := set_pixel_format_result sample_data sample_fb 2
  ⟨t.1, t.2.1 (by decide), t.2.2⟩

/-! ## Theorems on the parsed response slots -/

/-- C17 (evaluation at the failing input): the negotiation of the sample display yields
physical size 1920 x 1080 and pitch 7680 and maps `0x300000` bytes of framebuffer at
`0x40200000`; the write of one pixel at `(x, y) = (0, 1079)` satisfies `x + width <= 1920`
and `y + height <= 1080`, and stores at byte offset `1079 * 7680 = 8286720` from the
framebuffer base, beyond the mapped `0x300000` bytes. -/
theorem write_beyond_mapping :
    (bcm2711_display_init (sample_env (sample_response 0xC0200000)) sample_config
        sample_data 4).map
      (fun r => (r.ret, [r.data.physical_width, r.data.physical_height, r.data.pitch,
        r.data.virtual_framebuffer_address], r.maps.map (fun m => m.size))) =
      some (0, [1920, 1080, 7680, 0x40200000], [0x40, 0x300000]) ∧
    0 + 1 ≤ 1920 ∧ 1079 + 1 ≤ 1080 ∧
    (bcm2711_display_init (sample_env (sample_response 0xC0200000)) sample_config
        sample_data 4).map
      (fun r => (bcm2711_display_write r.data 0 1079 ⟨3, 1, 1, 1⟩ sample_buf
        sample_fb).2.stores) =
      some [(0x40200000 + 8286720, 0x302010)] ∧
    0x300000 ≤ 8286720 := by
  refine ⟨by decide, by decide, by decide, by decide, by decide⟩

/-- C19 (evaluation at the failing input): for `h = 10923`, `w = 0` and source pitch 65535
the exact index `(h * pitch + w) * 3` is 2147516415, above the largest `int`, and the index
that the blit computes is `2^64 - 2147450881`; for `h = 65534` the exact index is
12884312070 and the computed one is `2^64 - 589818`. -/
theorem buf_index_overflow :
    (10923 * 65535 + 0) * 3 = 2147516415 ∧ 2147483647 < 2147516415 ∧
    buf_index ⟨2147516418, 1, 10924, 65535⟩ 10923 0 = 18446744073709551616 - 2147450881 ∧
    (65534 * 65535 + 0) * 3 = 12884312070 ∧
    buf_index ⟨0, 1, 65535, 65535⟩ 65534 0 = 18446744073709551616 - 589818 := by
  decide

end Bcm2711
